import Mathlib

/-!
Verification of the batch orchestration engine of the Leo bulk
image-generation frontend (`src/frontend/src/components/Dashboard.tsx`,
`GeneratorView`).

Strings are modelled as `List Char`.  JavaScript whitespace (`\s` in the
regexes, `String.prototype.trim`) is modelled by the six ASCII whitespace
characters; the Unicode whitespace code points are outside the modelled
character repertoire.  The prompt lines handled by the parser come from
`prompts.split('\n')`, so they contain no `'\n'`; parser theorems that
quantify over arbitrary character lists carry this domain hypothesis where
the regex semantics would otherwise differ.
-/

namespace Leo

/-- Character strings of the frontend, as plain character lists. -/
abbrev Str := List Char

/-- JavaScript ASCII whitespace (the `\s` class and `trim`, restricted to
the ASCII repertoire). -/
def isWs (c : Char) : Bool :=
  c = ' ' || c = '\t' || c = '\n' || c = '\r' || c = '\x0b' || c = '\x0c'

/-- `String.prototype.trim`: strip whitespace from both ends. -/
def jsTrim (cs : Str) : Str :=
  ((cs.dropWhile isWs).reverse.dropWhile isWs).reverse

/-- `prompts.split('\n')` (Dashboard.tsx line 151): split on every newline,
keeping empty pieces. -/
def splitNl : Str → List Str
  | [] => [[]]
  | c :: rest =>
    if c = '\n' then [] :: splitNl rest
    else
      match splitNl rest with
      | [] => [[c]]
      | s :: ss => (c :: s) :: ss

/-- `prompts.split('\n').filter(p => p.trim())` (line 151): the non-empty
prompt lines of the bulk textbox. -/
def linesOf (promptsText : Str) : List Str :=
  (splitNl promptsText).filter (fun p => !(jsTrim p).isEmpty)

/-- Value of a decimal digit string, as `parseInt(_, 10)` produces on an
all-digit match of `(\d+)`. -/
def digitsToNat (ds : Str) : Nat :=
  ds.foldl (fun n c => 10 * n + (c.toNat - '0'.toNat)) 0

/-- The leading bracket tag match `line.match(/^\[(\d+)\]\s*/)`
(Dashboard.tsx line 165).  On success returns the parsed number and the
rest of the line with the tag and the following whitespace removed
(`line.slice(numberMatch[0].length)`, line 171). -/
def parseBracket : Str → Option (Nat × Str)
  | [] => none
  | c :: rest =>
    if c = '[' then
      let ds := rest.takeWhile Char.isDigit
      if ds = [] then none
      else
        match rest.drop ds.length with
        | [] => none
        | c2 :: rest2 =>
          if c2 = ']' then some (digitsToNat ds, rest2.dropWhile isWs) else none
    else none

/-- Does `cs` begin with a case-insensitive `--neg`, followed by one
whitespace character and at least one further character?  This is the
local condition under which `/^(.+?)\s*--neg\s+(.+)$/i` (line 175) can
place its `--neg` literal at the head of `cs`. -/
def matchNegAt : Str → Bool
  | a :: b :: c1 :: c2 :: c3 :: c4 :: _ :: _ =>
    a = '-' && b = '-' && (c1 = 'n' || c1 = 'N') && (c2 = 'e' || c2 = 'E')
      && (c3 = 'g' || c3 = 'G') && isWs c4
  | _ => false

/-- Index of the first position of `cs` satisfying `matchNegAt`. -/
def negScan : Str → Option Nat
  | [] => none
  | c :: rest =>
    if matchNegAt (c :: rest) then some 0 else (negScan rest).map (· + 1)

/-- The match `remainingLine.match(/^(.+?)\s*--neg\s+(.+)$/i)` (line 175):
on success, returns (text before the separator, text after the literal
`--neg`).  The regex places the separator at the first position `p ≥ 1`
where a case-insensitive `--neg` is followed by whitespace and at least
one more character (the lazy group 1 needs at least one character; the
trailing `\s+(.+)$` needs one whitespace and one further character);
`negMatch[1].trim()` and `negMatch[2].trim()` then equal the trims of the
two returned pieces. -/
def negSplit (cs : Str) : Option (Str × Str) :=
  match cs with
  | [] => none
  | _ :: rest =>
    (negScan rest).map (fun q => (cs.take (q + 1), cs.drop (q + 6)))

/-- Lines 175-185: base prompt and negative prompt of the remaining line,
given the session-global negative prompt.  With a `--neg` match the
negative is the override, trimmed; otherwise it is
`negativePrompt.trim() || undefined`. -/
def baseAndNeg (globalNeg : Str) (remaining : Str) : Str × Option Str :=
  match negSplit remaining with
  | some (pre, post) => (jsTrim pre, some (jsTrim post))
  | none =>
    (jsTrim remaining,
      if jsTrim globalNeg = [] then none else some (jsTrim globalNeg))

/-- One entry of the `IMPORTANT_VARIANTS` constant (lines 72-85). -/
structure Variant where
  label : Str
  value : Str
deriving DecidableEq

/-- The `IMPORTANT_VARIANTS` list (lines 72-85). -/
def IMPORTANT_VARIANTS : List Variant :=
  [⟨"Summoning digital vines".data, "summoning_digital_vines".data⟩,
   ⟨"Holding two coins fused".data, "holding_two_coins_fused".data⟩,
   ⟨"Wearing an amulet".data, "wearing_an_amulet".data⟩,
   ⟨"Raising a cube".data, "raising_a_cube".data⟩,
   ⟨"Cradling a miniature world".data, "cradling_a_miniature_world".data⟩,
   ⟨"Holding a holographic display".data, "holding_a_holographic_display".data⟩,
   ⟨"Holding a staff".data, "holding_a_staff".data⟩,
   ⟨"Grasping a coin".data, "grasping_a_coin".data⟩,
   ⟨"Holding a glowing seed".data, "holding_a_glowing_seed".data⟩,
   ⟨"Cradling a glowing acorn".data, "cradling_a_glowing_acorn".data⟩,
   ⟨"Raising a golden token".data, "raising_a_golden_token".data⟩,
   ⟨"Holding up a circular item".data, "holding_up_a_circular_item".data⟩]

/-- The reference-image fan-out mode selector (line 65). -/
inductive RefMode where
  | cycle
  | all
  | combined
deriving DecidableEq

/-- Session-level state of `GeneratorView` read by `handleSubmit`.
`effectiveModelId` is the already-computed
`useCustomModel && customModelId.trim() ? customModelId.trim() : selectedModel`
of line 127; `seed` models `seed !== '' ? seed : undefined` (line 215). -/
structure Config where
  negativePrompt : Str
  loraId : Str
  loraWeight : ℚ
  triggerWord : Str
  impVariant : Str
  refImageMode : RefMode
  referenceType : Str
  initStrength : ℚ
  effectiveModelId : Str
  width : Nat
  height : Nat
  numImages : Nat
  guidanceScale : ℚ
  numSteps : Nat
  scheduler : Str
  alchemy : Bool
  enhancePrompt : Bool
  presetStyle : Str
  seed : Option Int

/-- Result of `parsePromptLine` (lines 200-204). -/
structure Parsed where
  prompt : Str
  negative : Option Str
  prompt_number : Option Nat
deriving DecidableEq

/-- Lines 187-198: trigger-word prepending and important-variant
injection applied to the base prompt.  The template literals are
`` `${triggerWord.trim()}, ${basePrompt} ` `` and
`` `${promptWithTrigger}, ${variantObj.label} imp = ${variantObj.value} ` ``,
both of which end in a space, and the second of which has spaces around
`=`. -/
def injectTriggerVariant (cfg : Config) (basePrompt : Str) : Str :=
  let variantObj := IMPORTANT_VARIANTS.find? (fun v => v.value = cfg.impVariant)
  let promptWithTrigger :=
    if jsTrim cfg.loraId ≠ [] ∧ jsTrim cfg.triggerWord ≠ [] then
      jsTrim cfg.triggerWord ++ ", ".data ++ basePrompt ++ " ".data
    else basePrompt
  match variantObj with
  | some v =>
    promptWithTrigger ++ ", ".data ++ v.label ++ " imp = ".data ++ v.value
      ++ " ".data
  | none => promptWithTrigger

/-- Lines 174-204 of `parsePromptLine`: everything after the bracket-tag
extraction, applied to the remaining line. -/
def parseAfterBracket (cfg : Config) (remaining : Str) : Str × Option Str :=
  let bn := baseAndNeg cfg.negativePrompt remaining
  (injectTriggerVariant cfg bn.1, bn.2)

/-- The remaining line after the bracket-tag extraction (lines 165-172). -/
def remainingOf (line : Str) : Str :=
  match parseBracket line with
  | some (_, r) => r
  | none => line

/-- `parsePromptLine` (lines 163-205). -/
def parsePromptLine (cfg : Config) (line : Str) : Parsed :=
  match parseBracket line with
  | some (n, remaining) =>
    let pr := parseAfterBracket cfg remaining
    ⟨pr.1, pr.2, some n⟩
  | none =>
    let pr := parseAfterBracket cfg line
    ⟨pr.1, pr.2, none⟩

/-- One generation item of the batch request (lines 219-302).  Absent
JSON fields are `none`.  `userElements` models
`loraId.trim() ? [{userLoraId: Number(loraId.trim()), weight: loraWeight}] : undefined`,
keeping the trimmed identifier text (the JavaScript `Number` conversion is
outside the model). -/
structure GenItem where
  prompt : Str
  prompt_number : Option Nat
  negative_prompt : Option Str
  modelId : Str
  width : Nat
  height : Nat
  num_images : Nat
  init_image_ids : Option (List Str)
  init_image_id : Option Str
  strength : Option ℚ
  reference_mode : Option Str
  userElements : Option (Str × ℚ)
  guidance_scale : ℚ
  num_inference_steps : Nat
  scheduler : Str
  alchemy : Option Bool
  enhancePrompt : Option Bool
  presetStyle : Option Str
  seed : Option Int
deriving DecidableEq

/-- The `userElements` field shared by all four item shapes. -/
def userElementsOf (cfg : Config) : Option (Str × ℚ) :=
  if jsTrim cfg.loraId ≠ [] then some (jsTrim cfg.loraId, cfg.loraWeight)
  else none

/-- An item of the no-reference branch (lines 223-236), also the shared
core of the other three shapes: prompt data plus model, size and the
`advancedParams` of lines 208-216. -/
def plainItem (cfg : Config) (parsed : Parsed) : GenItem where
  prompt := parsed.prompt
  prompt_number := parsed.prompt_number
  negative_prompt := parsed.negative
  modelId := cfg.effectiveModelId
  width := cfg.width
  height := cfg.height
  num_images := cfg.numImages
  init_image_ids := none
  init_image_id := none
  strength := none
  reference_mode := none
  userElements := userElementsOf cfg
  guidance_scale := cfg.guidanceScale
  num_inference_steps := cfg.numSteps
  scheduler := cfg.scheduler
  alchemy := if cfg.alchemy then some true else none
  enhancePrompt := if cfg.enhancePrompt then some true else none
  presetStyle := if cfg.presetStyle = [] then none else some cfg.presetStyle
  seed := cfg.seed

/-- An item of the `combined` branch (lines 240-257): all image ids in
`init_image_ids`, strength `1 - initStrength`. -/
def combinedItem (cfg : Config) (ids : List Str) (parsed : Parsed) : GenItem :=
  { plainItem cfg parsed with
    init_image_ids := some ids
    strength := some (1 - cfg.initStrength)
    reference_mode := some cfg.referenceType }

/-- An item of the `cycle` or `all` branches (lines 260-280, 283-301): a
single image id in `init_image_id`, strength `1 - initStrength`. -/
def singleRefItem (cfg : Config) (imageId : Option Str) (parsed : Parsed) :
    GenItem :=
  { plainItem cfg parsed with
    init_image_id := imageId
    strength := some (1 - cfg.initStrength)
    reference_mode := some cfg.referenceType }

/-- The batch expander (lines 219-302): builds the `items` list from the
non-empty prompt lines, the uploaded image ids and the fan-out mode.  In
the `cycle` branch the image id is `uploadedImageIds[idx % length]`
(line 262), always present since the branch requires a non-empty id
list. -/
def buildItems (cfg : Config) (lines : List Str) (uploadedImageIds : List Str) :
    List GenItem :=
  if uploadedImageIds = [] then
    lines.map (fun p => plainItem cfg (parsePromptLine cfg p))
  else
    match cfg.refImageMode with
    | .combined =>
      lines.map (fun p => combinedItem cfg uploadedImageIds (parsePromptLine cfg p))
    | .cycle =>
      lines.mapIdx (fun idx p =>
        singleRefItem cfg uploadedImageIds[idx % uploadedImageIds.length]?
          (parsePromptLine cfg p))
    | .all =>
      lines.flatMap (fun p =>
        uploadedImageIds.map (fun imageId =>
          singleRefItem cfg (some imageId) (parsePromptLine cfg p)))

/-- Observable steps of one `handleSubmit` run (lines 131-338). -/
inductive SubmitEvent where
  | uploadCall : Nat → SubmitEvent
  | alertNoPrompts : SubmitEvent
  | batchCall : List GenItem → SubmitEvent
  | pollingStarted : Str → SubmitEvent
  | alertFailed : SubmitEvent
deriving DecidableEq

/-- The sequential upload loop (lines 135-149), with each reference image
file represented by its upload outcome (`some id` for a 2xx response
carrying `imageId`, `none` for a failed response).  Returns the emitted
upload calls and, unless a failure aborted the loop (the `throw` of line
145), the accumulated id list in upload order. -/
def uploadPhase : Nat → List (Option Str) → List SubmitEvent × Option (List Str)
  | _, [] => ([], some [])
  | i, some id :: rest =>
    let r := uploadPhase (i + 1) rest
    (SubmitEvent.uploadCall i :: r.1, r.2.map (id :: ·))
  | i, none :: _ => ([SubmitEvent.uploadCall i], none)

/-- The observable trace of one `handleSubmit` run (lines 131-338):
uploads first; then the non-empty-lines check of lines 151-156 with its
synchronous alert; then the batch-create call, and on its success the
start of polling, on its failure (or an upload failure) the catch-block
alert of line 334. -/
def handleSubmitTrace (cfg : Config) (promptsText : Str)
    (uploads : List (Option Str)) (batchResp : Option Str) : List SubmitEvent :=
  let up := uploadPhase 0 uploads
  match up.2 with
  | none => up.1 ++ [SubmitEvent.alertFailed]
  | some ids =>
    let lines := linesOf promptsText
    if lines = [] then up.1 ++ [SubmitEvent.alertNoPrompts]
    else
      let items := buildItems cfg lines ids
      match batchResp with
      | none => up.1 ++ [SubmitEvent.batchCall items, SubmitEvent.alertFailed]
      | some bid =>
        up.1 ++ [SubmitEvent.batchCall items, SubmitEvent.pollingStarted bid]

/-- Status of one job in a status response (spec §6). -/
inductive JobStatus where
  | queued
  | processing
  | completed
  | failed
deriving DecidableEq

/-- One job entry of a status response. -/
structure JobEntry where
  id : Str
  status : JobStatus
  prompt : Str
deriving DecidableEq

/-- An aggregate status snapshot returned by `GET /jobs/{batchId}`. -/
structure Snapshot where
  total : Nat
  completed : Nat
  failed : Nat
  processing : Nat
  jobs : List JobEntry
deriving DecidableEq

/-- Combined state of the two polling intervals that run after a
successful submission: the component-level `useEffect` interval of lines
114-124 (`effectActive`) and the `checkCompletion` interval of lines
319-331 (`checkActive`), the shared `jobStatus` snapshot, and whether the
`onBatchComplete` notification has fired (line 326). -/
structure PollerState where
  effectActive : Bool
  checkActive : Bool
  jobStatus : Option Snapshot
  completeFired : Bool
deriving DecidableEq

/-- State immediately after `setBatchId` (lines 316-331): both intervals
armed, no snapshot yet, notification not fired. -/
def initialPollerState : PollerState := ⟨true, true, none, false⟩

/-- One tick of the `useEffect` interval (lines 117-121): if active, it
issues a status query; a successful response replaces `jobStatus`
(`setJobStatus(res.data)`), a failure is only logged
(`.catch(console.error)`) and the interval stays active.  Nothing ever
clears this interval except unmount or a `batchId` change. -/
def effectTick (s : PollerState) (resp : Option Snapshot) : PollerState :=
  if s.effectActive then
    match resp with
    | some snap => { s with jobStatus := some snap }
    | none => s
  else s

/-- One tick of the `checkCompletion` interval (lines 319-331): if
active, it issues a status query; a successful response replaces
`jobStatus`, and when `completed + failed == total` the interval clears
itself and fires `onBatchComplete`; a failed query reaches the catch
block, which clears the interval (line 329). -/
def checkTick (s : PollerState) (resp : Option Snapshot) : PollerState :=
  if s.checkActive then
    match resp with
    | some snap =>
      if snap.completed + snap.failed = snap.total then
        { s with jobStatus := some snap, checkActive := false,
                 completeFired := true }
      else { s with jobStatus := some snap }
    | none => { s with checkActive := false }
  else s

/-- One 2000 ms polling cadence: each active interval issues one status
query and handles its own response. -/
def tick (s : PollerState) (eff chk : Option Snapshot) : PollerState :=
  checkTick (effectTick s eff) chk

/-- A polling run over a list of per-tick responses. -/
def runPoll : PollerState → List (Option Snapshot × Option Snapshot) → PollerState
  | s, [] => s
  | s, (e, c) :: rest => runPoll (tick s e c) rest

/-- Number of status queries issued on the next tick: one per active
interval. -/
def queriesIssued (s : PollerState) : Nat :=
  (if s.effectActive then 1 else 0) + (if s.checkActive then 1 else 0)

/-- Request path of the `useEffect` interval's query (line 118). -/
def effectPollPath (batchId : Str) : Str := "/jobs/".data ++ batchId

/-- Request path of the `checkCompletion` interval's query, as written in
the template literal of line 321 (note the embedded spaces). -/
def checkPollPath (batchId : Str) : Str :=
  "/ jobs / ".data ++ batchId ++ " ".data

/-- Claim-side condition: the line begins with a bracketed non-negative
integer tag `[digits]`. -/
def hasLeadingBracket (line : Str) : Prop :=
  ∃ ds rest, ds ≠ [] ∧ ds.all Char.isDigit = true
    ∧ line = '[' :: (ds ++ ']' :: rest)

/-- Claim-side condition: at position `p` of `cs` stands a
case-insensitive `--neg` followed by a whitespace character and at least
one further character — the shape at which `/^(.+?)\s*--neg\s+(.+)$/i`
can place its separator. -/
def negSepDecomp (cs : Str) (p : Nat) : Prop :=
  ∃ a c1 c2 c3 w b, a.length = p
    ∧ cs = a ++ '-' :: '-' :: c1 :: c2 :: c3 :: w :: b
    ∧ (c1 = 'n' ∨ c1 = 'N') ∧ (c2 = 'e' ∨ c2 = 'E') ∧ (c3 = 'g' ∨ c3 = 'G')
    ∧ isWs w = true ∧ b ≠ []

/-- Claim-side condition: the first usable `--neg` separator of `cs`
stands at position `p` (positions `≥ 1`, as the lazy group 1 of the regex
needs at least one character before the separator). -/
def firstNegSep (cs : Str) (p : Nat) : Prop :=
  1 ≤ p ∧ negSepDecomp cs p ∧ ∀ q, 1 ≤ q → q < p → ¬ negSepDecomp cs q

/-- A concrete session configuration used by the concrete instances:
the component's initial state (lines 56-95) with the default negative
prompt shortened to `"low quality"` and a selected model `"m"`. -/
def exampleConfig : Config where
  negativePrompt := "low quality".data
  loraId := []
  loraWeight := 1
  triggerWord := []
  impVariant := []
  refImageMode := .combined
  referenceType := "character".data
  initStrength := 3/10
  effectiveModelId := "m".data
  width := 1024
  height := 1024
  numImages := 1
  guidanceScale := 7
  numSteps := 30
  scheduler := "EULER_DISCRETE".data
  alchemy := false
  enhancePrompt := false
  presetStyle := []
  seed := none

/-! ### Structural lemmas about the parser -/

theorem parsePromptLine_negative (cfg : Config) (line : Str) :
    (parsePromptLine cfg line).negative
      = (baseAndNeg cfg.negativePrompt (remainingOf line)).2 := by
  cases hpb : parseBracket line with
  | none => simp [parsePromptLine, remainingOf, parseAfterBracket, hpb]
  | some v =>
    obtain ⟨n, r⟩ := v
    simp [parsePromptLine, remainingOf, parseAfterBracket, hpb]

theorem parsePromptLine_prompt (cfg : Config) (line : Str) :
    (parsePromptLine cfg line).prompt
      = injectTriggerVariant cfg (baseAndNeg cfg.negativePrompt (remainingOf line)).1 := by
  cases hpb : parseBracket line with
  | none => simp [parsePromptLine, remainingOf, parseAfterBracket, hpb]
  | some v =>
    obtain ⟨n, r⟩ := v
    simp [parsePromptLine, remainingOf, parseAfterBracket, hpb]

theorem parsePromptLine_number (cfg : Config) (line : Str) :
    (parsePromptLine cfg line).prompt_number = (parseBracket line).map Prod.fst := by
  cases hpb : parseBracket line with
  | none => simp [parsePromptLine, hpb]
  | some v =>
    obtain ⟨n, r⟩ := v
    simp [parsePromptLine, hpb]

theorem all_digits_takeWhile (ds rest : Str) (h : ds.all Char.isDigit = true) :
    (ds ++ ']' :: rest).takeWhile Char.isDigit = ds := by
  induction ds with
  | nil => simp [List.takeWhile_cons]
  | cons d ds ih =>
    rw [List.all_cons, Bool.and_eq_true] at h
    simp [List.takeWhile_cons, h.1, ih h.2]

theorem parseBracket_decomp (ds rest : Str) (hne : ds ≠ [])
    (hdig : ds.all Char.isDigit = true) :
    parseBracket ('[' :: (ds ++ ']' :: rest))
      = some (digitsToNat ds, rest.dropWhile isWs) := by
  have ht := all_digits_takeWhile ds rest hdig
  have hd : (ds ++ ']' :: rest).drop ds.length = ']' :: rest := List.drop_left ds _
  simp only [parseBracket, if_pos rfl, ht, hd, if_neg hne]
  simp

theorem parseBracket_eq_some (line : Str) (n : Nat) (r : Str)
    (h : parseBracket line = some (n, r)) :
    ∃ ds rest, ds ≠ [] ∧ ds.all Char.isDigit = true
      ∧ line = '[' :: (ds ++ ']' :: rest) ∧ n = digitsToNat ds
      ∧ r = rest.dropWhile isWs := by
  cases line with
  | nil => simp [parseBracket] at h
  | cons c rest0 =>
    by_cases hc : c = '['
    · subst hc
      simp only [parseBracket, if_pos rfl] at h
      by_cases hne : rest0.takeWhile Char.isDigit = []
      · simp [hne] at h
      · rw [if_neg hne] at h
        have hsplit : rest0.takeWhile Char.isDigit ++ rest0.dropWhile Char.isDigit = rest0 :=
          List.takeWhile_append_dropWhile _ _
        have hdrop : rest0.drop (rest0.takeWhile Char.isDigit).length
            = rest0.dropWhile Char.isDigit := by
          have h2 : (rest0.takeWhile Char.isDigit ++ rest0.dropWhile Char.isDigit).drop
              (rest0.takeWhile Char.isDigit).length = rest0.dropWhile Char.isDigit :=
            List.drop_left _ _
          rwa [hsplit] at h2
        rw [hdrop] at h
        cases hdw : rest0.dropWhile Char.isDigit with
        | nil => rw [hdw] at h; simp at h
        | cons c2 rest2 =>
          rw [hdw] at h
          simp only [Option.ite_none_right_eq_some, Option.some.injEq,
            Prod.mk.injEq] at h
          obtain ⟨hc2, hcv, hn, hr⟩ := h
          subst hcv
          refine ⟨rest0.takeWhile Char.isDigit, rest2, hne,
            List.all_takeWhile, ?_, hn.symm, hr.symm⟩
          conv_lhs => rw [← hsplit, hdw]
    · simp [parseBracket, hc] at h

/-! ### The first usable separator found by the negative-prompt regex -/

theorem matchNegAt_eq_true_iff (cs : Str) :
    matchNegAt cs = true ↔ ∃ c1 c2 c3 w b,
      cs = '-' :: '-' :: c1 :: c2 :: c3 :: w :: b
      ∧ (c1 = 'n' ∨ c1 = 'N') ∧ (c2 = 'e' ∨ c2 = 'E') ∧ (c3 = 'g' ∨ c3 = 'G')
      ∧ isWs w = true ∧ b ≠ [] := by
  constructor
  · intro h
    rcases cs with _ | ⟨a, _ | ⟨b0, _ | ⟨c1, _ | ⟨c2, _ | ⟨c3, _ | ⟨c4, _ | ⟨x, t⟩⟩⟩⟩⟩⟩⟩ <;>
      simp [matchNegAt] at h
    obtain ⟨⟨⟨⟨⟨ha, hb⟩, h1⟩, h2⟩, h3⟩, h4⟩ := h
    subst ha; subst hb
    exact ⟨c1, c2, c3, c4, x :: t, rfl, h1, h2, h3, h4, by simp⟩
  · rintro ⟨c1, c2, c3, w, b, rfl, h1, h2, h3, hw, hb⟩
    rcases b with _ | ⟨x, t⟩
    · exact absurd rfl hb
    · rcases h1 with rfl | rfl <;> rcases h2 with rfl | rfl <;>
        rcases h3 with rfl | rfl <;> simp [matchNegAt, hw]

theorem negScan_eq_some_iff (cs : Str) (p : Nat) :
    negScan cs = some p
      ↔ matchNegAt (cs.drop p) = true
        ∧ ∀ q, q < p → matchNegAt (cs.drop q) = false := by
  induction cs generalizing p with
  | nil => simp [negScan, matchNegAt]
  | cons c rest ih =>
    by_cases h : matchNegAt (c :: rest) = true
    · simp only [negScan, h, if_true]
      constructor
      · intro h0
        have hp : p = 0 := by
          have := Option.some.inj h0
          omega
        subst hp
        exact ⟨by simpa using h, fun q hq => absurd hq (Nat.not_lt_zero q)⟩
      · rintro ⟨hm, hmin⟩
        cases p with
        | zero => rfl
        | succ p' => exact absurd h (by simpa using hmin 0 (Nat.succ_pos p'))
    · have h' : matchNegAt (c :: rest) = false := by simpa using h
      simp only [negScan, h', if_false, Bool.false_eq_true]
      constructor
      · intro hmap
        obtain ⟨q, hq, hqp⟩ := Option.map_eq_some'.mp hmap
        subst hqp
        obtain ⟨hm, hmin⟩ := (ih q).mp hq
        refine ⟨by simpa using hm, ?_⟩
        intro r hr
        cases r with
        | zero => simpa using h'
        | succ r' =>
          simpa using hmin r' (Nat.lt_of_succ_lt_succ hr)
      · rintro ⟨hm, hmin⟩
        cases p with
        | zero => exact absurd (by simpa using hm) h
        | succ q =>
          have hq : negScan rest = some q :=
            (ih q).mpr ⟨by simpa using hm,
              fun r hr => by simpa using hmin (r + 1) (Nat.succ_lt_succ hr)⟩
          simp [hq]

theorem negScan_eq_none_iff (cs : Str) :
    negScan cs = none ↔ ∀ q, matchNegAt (cs.drop q) = false := by
  induction cs with
  | nil => simp [negScan, matchNegAt]
  | cons c rest ih =>
    by_cases h : matchNegAt (c :: rest) = true
    · simp only [negScan, h, if_true]
      constructor
      · intro h0; exact absurd h0 (by simp)
      · intro hall; exact absurd (hall 0) (by simpa using h)
    · have h' : matchNegAt (c :: rest) = false := by simpa using h
      simp only [negScan, h', if_false, Bool.false_eq_true, Option.map_eq_none']
      rw [ih]
      constructor
      · intro hall q
        cases q with
        | zero => simpa using h'
        | succ q' => simpa using hall q'
      · intro hall q
        simpa using hall (q + 1)

theorem negSplit_eq_some_iff (cs : Str) (pre post : Str) :
    negSplit cs = some (pre, post)
      ↔ ∃ p, 1 ≤ p ∧ matchNegAt (cs.drop p) = true
          ∧ (∀ q, 1 ≤ q → q < p → matchNegAt (cs.drop q) = false)
          ∧ pre = cs.take p ∧ post = cs.drop (p + 5) := by
  cases cs with
  | nil =>
    simp only [negSplit]
    constructor
    · intro h; exact absurd h (by simp)
    · rintro ⟨p, hp1, hm, hmin, hpre, hpost⟩
      simp [matchNegAt] at hm
  | cons c rest =>
    simp only [negSplit]
    constructor
    · intro h
      obtain ⟨q, hq, hpair⟩ := Option.map_eq_some'.mp h
      obtain ⟨hpre, hpost⟩ := Prod.mk.injEq _ _ _ _ ▸ hpair
      obtain ⟨hm, hmin⟩ := (negScan_eq_some_iff rest q).mp hq
      refine ⟨q + 1, Nat.le_add_left 1 q, by simpa using hm, ?_, hpre.symm, ?_⟩
      · intro r h1 hr
        obtain ⟨r', rfl⟩ : ∃ r', r = r' + 1 := ⟨r - 1, by omega⟩
        simpa using hmin r' (by omega)
      · exact hpost.symm
    · rintro ⟨p, hp1, hm, hmin, rfl, rfl⟩
      obtain ⟨p', rfl⟩ : ∃ p', p = p' + 1 := ⟨p - 1, by omega⟩
      have hq : negScan rest = some p' :=
        (negScan_eq_some_iff rest p').mpr ⟨by simpa using hm,
          fun r hr => by simpa using hmin (r + 1) (by omega) (by omega)⟩
      simp [hq]

theorem negSplit_eq_none_iff (cs : Str) :
    negSplit cs = none ↔ ∀ p, 1 ≤ p → matchNegAt (cs.drop p) = false := by
  cases cs with
  | nil =>
    simp only [negSplit]
    constructor
    · intro _ p _
      simp [matchNegAt]
    · intro _; trivial
  | cons c rest =>
    simp only [negSplit, Option.map_eq_none']
    rw [negScan_eq_none_iff]
    constructor
    · intro hall p hp
      obtain ⟨p', rfl⟩ : ∃ p', p = p' + 1 := ⟨p - 1, by omega⟩
      simpa using hall p'
    · intro hall q
      simpa using hall (q + 1) (by omega)

theorem negSepDecomp_iff (cs : Str) (p : Nat) :
    negSepDecomp cs p ↔ matchNegAt (cs.drop p) = true := by
  constructor
  · rintro ⟨a, c1, c2, c3, w, b, rfl, rfl, h1, h2, h3, hw, hb⟩
    rw [List.drop_left]
    exact (matchNegAt_eq_true_iff _).mpr ⟨c1, c2, c3, w, b, rfl, h1, h2, h3, hw, hb⟩
  · intro h
    obtain ⟨c1, c2, c3, w, b, hdrop, h1, h2, h3, hw, hb⟩ :=
      (matchNegAt_eq_true_iff _).mp h
    have hlen : p ≤ cs.length := by
      by_contra hgt
      rw [List.drop_eq_nil_of_le (by omega)] at hdrop
      exact absurd hdrop (by simp)
    refine ⟨cs.take p, c1, c2, c3, w, b, ?_, ?_, h1, h2, h3, hw, hb⟩
    · exact List.length_take_of_le hlen
    · conv_lhs => rw [← List.take_append_drop p cs, hdrop]

/-! ### Claims about the prompt line parser -/

theorem parseBracket_isSome_iff (line : Str) :
    (parseBracket line).isSome = true ↔ hasLeadingBracket line := by
  constructor
  · intro h
    obtain ⟨⟨n, r⟩, hv⟩ := Option.isSome_iff_exists.mp h
    obtain ⟨ds, rest, hne, hdig, hline, _, _⟩ := parseBracket_eq_some line n r hv
    exact ⟨ds, rest, hne, hdig, hline⟩
  · rintro ⟨ds, rest, hne, hdig, rfl⟩
    rw [parseBracket_decomp ds rest hne hdig]
    rfl

/-- C4: for every non-empty line without a leading bracket tag,
`promptNumber` is absent; for every line starting with `[N]` (any digit
count), `promptNumber` equals `N` and the tag text is removed from the
base prompt (prompt and negative are computed from the remainder alone);
for every line containing a case-insensitive `--neg X` separator, the
resulting negative prompt equals `X` trimmed regardless of the global
default; lines without `--neg` fall back to the (trimmed) global negative
prompt, absent when that default is blank. -/
theorem prompt_line_parser_postcondition (cfg cfg2 : Config) (line : Str) :
    (¬ hasLeadingBracket line → (parsePromptLine cfg line).prompt_number = none)
    ∧ (∀ ds rest, ds ≠ [] → ds.all Char.isDigit = true →
        (parsePromptLine cfg ('[' :: (ds ++ ']' :: rest))).prompt_number
            = some (digitsToNat ds)
        ∧ (parsePromptLine cfg ('[' :: (ds ++ ']' :: rest))).prompt
            = injectTriggerVariant cfg
                (baseAndNeg cfg.negativePrompt (rest.dropWhile isWs)).1
        ∧ (parsePromptLine cfg ('[' :: (ds ++ ']' :: rest))).negative
            = (baseAndNeg cfg.negativePrompt (rest.dropWhile isWs)).2)
    ∧ (∀ p, firstNegSep (remainingOf line) p →
        (parsePromptLine cfg line).negative
            = some (jsTrim ((remainingOf line).drop (p + 5)))
        ∧ (parsePromptLine cfg line).negative
            = (parsePromptLine cfg2 line).negative)
    ∧ ((∀ p, 1 ≤ p → ¬ negSepDecomp (remainingOf line) p) →
        (parsePromptLine cfg line).negative
            = (if jsTrim cfg.negativePrompt = [] then none
               else some (jsTrim cfg.negativePrompt))) := by
  refine ⟨?_, ?_, ?_, ?_⟩
  · intro hnb
    rw [parsePromptLine_number]
    cases hpb : parseBracket line with
    | none => rfl
    | some v =>
      obtain ⟨n, r⟩ := v
      exact absurd ((parseBracket_isSome_iff line).mp (by simp [hpb])) hnb
  · intro ds rest hne hdig
    have hpb := parseBracket_decomp ds rest hne hdig
    have hrem : remainingOf ('[' :: (ds ++ ']' :: rest)) = rest.dropWhile isWs := by
      simp [remainingOf, hpb]
    refine ⟨?_, ?_, ?_⟩
    · rw [parsePromptLine_number, hpb]; rfl
    · rw [parsePromptLine_prompt, hrem]
    · rw [parsePromptLine_negative, hrem]
  · intro p hp
    obtain ⟨hp1, hdec, hmin⟩ := hp
    have hm : matchNegAt ((remainingOf line).drop p) = true :=
      (negSepDecomp_iff _ _).mp hdec
    have hminM : ∀ q, 1 ≤ q → q < p →
        matchNegAt ((remainingOf line).drop q) = false := by
      intro q h1 h2
      exact Bool.eq_false_iff.mpr
        (fun hx => hmin q h1 h2 ((negSepDecomp_iff _ _).mpr hx))
    have hsp : negSplit (remainingOf line)
        = some ((remainingOf line).take p, (remainingOf line).drop (p + 5)) :=
      (negSplit_eq_some_iff _ _ _).mpr ⟨p, hp1, hm, hminM, rfl, rfl⟩
    constructor
    · rw [parsePromptLine_negative]
      simp [baseAndNeg, hsp]
    · rw [parsePromptLine_negative, parsePromptLine_negative]
      simp [baseAndNeg, hsp]
  · intro hall
    have hsp : negSplit (remainingOf line) = none :=
      (negSplit_eq_none_iff _).mpr (fun p hp =>
        Bool.eq_false_iff.mpr (fun hx => hall p hp ((negSepDecomp_iff _ _).mpr hx)))
    rw [parsePromptLine_negative]
    simp [baseAndNeg, hsp]

/-- Witness for C4 at concrete inputs. -/
theorem prompt_line_parser_postcondition_witness :
    (parsePromptLine exampleConfig "[1] a red fox --neg blurry".data).negative
        = some "blurry".data
    ∧ (parsePromptLine exampleConfig "a fox".data).prompt_number = none
    ∧ (parsePromptLine exampleConfig "[12] a fox".data).prompt_number = some 12 := by
  refine ⟨?_, ?_, ?_⟩
  · have h := (prompt_line_parser_postcondition exampleConfig exampleConfig
        "[1] a red fox --neg blurry".data).2.2.1 10
      ⟨by omega,
       ⟨"a red fox ".data, 'n', 'e', 'g', ' ', "blurry".data,
        by decide, by decide, Or.inl rfl, Or.inl rfl, Or.inl rfl, by decide,
        by decide⟩,
       ?_⟩
    · exact h.1.trans (by decide)
    · intro q h1 h2 hdec
      have hm := (negSepDecomp_iff _ _).mp hdec
      interval_cases q <;> exact absurd hm (by decide)
  · exact (prompt_line_parser_postcondition exampleConfig exampleConfig "a fox".data).1
      (by rw [← parseBracket_isSome_iff]; decide)
  · exact ((prompt_line_parser_postcondition exampleConfig exampleConfig [] ).2.1 "12".data " a fox".data
      (by decide) (by decide)).1.trans (by decide)

/-- C8 (amended): `promptNumber` is present iff the line begins with a
bracketed non-negative integer; the resulting negative prompt is absent
or empty exactly when either there is no `--neg` override and the trimmed
global default is empty, or the `--neg` override payload trims to the
empty string (e.g. `--neg` followed only by whitespace). -/
theorem prompt_line_invariant_amended (cfg : Config) (line : Str) :
    ((∃ n, (parsePromptLine cfg line).prompt_number = some n)
        ↔ hasLeadingBracket line)
    ∧ (((parsePromptLine cfg line).negative = none
        ∨ (parsePromptLine cfg line).negative = some [])
      ↔ (negSplit (remainingOf line) = none ∧ jsTrim cfg.negativePrompt = [])
        ∨ (∃ pre post, negSplit (remainingOf line) = some (pre, post)
            ∧ jsTrim post = [])) := by
  constructor
  · rw [parsePromptLine_number]
    constructor
    · rintro ⟨n, hn⟩
      obtain ⟨v, hv, _⟩ := Option.map_eq_some'.mp hn
      exact (parseBracket_isSome_iff line).mp (by simp [hv])
    · intro hb
      obtain ⟨⟨n, r⟩, hv⟩ :=
        Option.isSome_iff_exists.mp ((parseBracket_isSome_iff line).mpr hb)
      exact ⟨n, by simp [hv]⟩
  · rw [parsePromptLine_negative]
    cases hns : negSplit (remainingOf line) with
    | some pr =>
      obtain ⟨pre, post⟩ := pr
      have hb : (baseAndNeg cfg.negativePrompt (remainingOf line)).2
          = some (jsTrim post) := by
        simp [baseAndNeg, hns]
      rw [hb]
      constructor
      · rintro (h | h)
        · exact absurd h (by simp)
        · exact Or.inr ⟨pre, post, rfl, by simpa using h⟩
      · rintro (⟨h, _⟩ | ⟨p1, p2, hpp, h3⟩)
        · exact absurd h (by simp)
        · have hpair := Option.some.inj hpp
          rw [Prod.mk.injEq] at hpair
          obtain ⟨rfl, rfl⟩ := hpair
          exact Or.inr (by rw [h3])
    | none =>
      simp only [baseAndNeg, hns]
      by_cases hg : jsTrim cfg.negativePrompt = [] <;> simp [hg]

/-- C8 counterexample: on the line `"a --neg  "` (trailing whitespace
after the separator) the parsed negative prompt is the empty string even
though the global default `"low quality"` is non-empty, refuting
"`negativePrompt` is always non-empty unless both override and global
default are empty" as stated. -/
theorem prompt_line_invariant_counterexample :
    (parsePromptLine exampleConfig "a --neg  ".data).negative = some []
    ∧ jsTrim exampleConfig.negativePrompt ≠ [] := by
  constructor
  · decide
  · decide

/-- Witness for the amended C8 at concrete inputs. -/
theorem prompt_line_invariant_amended_witness :
    ((∃ n, (parsePromptLine exampleConfig "[7] x".data).prompt_number = some n)
        ↔ hasLeadingBracket "[7] x".data)
    ∧ ((parsePromptLine exampleConfig "a --neg  ".data).negative = none
        ∨ (parsePromptLine exampleConfig "a --neg  ".data).negative = some []) := by
  constructor
  · exact (prompt_line_invariant_amended exampleConfig "[7] x".data).1
  · exact ((prompt_line_invariant_amended exampleConfig "a --neg  ".data).2).mpr
      (Or.inr ⟨"a ".data, "  ".data, by decide, by decide⟩)

/-- C10: the bracket tag is only recognized at character position 0 of
the raw (untrimmed) line: any line whose first character is whitespace
has no `promptNumber`, and for `" [1] a fox"` the bracket text remains
inside the trimmed base prompt even though the line survives the
non-empty filter. -/
theorem bracket_tag_only_at_position_zero (c : Char) (cs : Str) (cfg : Config) (hws : isWs c = true) :
    (parsePromptLine cfg (c :: cs)).prompt_number = none
    ∧ (parsePromptLine exampleConfig " [1] a fox".data).prompt_number = none
    ∧ (parsePromptLine exampleConfig " [1] a fox".data).prompt = "[1] a fox".data
    ∧ linesOf " [1] a fox".data = [" [1] a fox".data] := by
  refine ⟨?_, by decide, by decide, by decide⟩
  rw [parsePromptLine_number]
  have hc : c ≠ '[' := by
    intro h
    subst h
    exact absurd hws (by decide)
  have hpb : parseBracket (c :: cs) = none := by
    simp [parseBracket, hc]
  simp [hpb]

/-- Witness for C10 at a concrete input. -/
theorem bracket_tag_only_at_position_zero_witness :
    (parsePromptLine exampleConfig (' ' :: "[1] a fox".data)).prompt_number
      = none :=
  (bracket_tag_only_at_position_zero ' ' "[1] a fox".data exampleConfig (by decide)).1

/-! ### Claims about the batch expander -/

/-- C1: for every bulk text with `L` non-empty prompt lines and `M`
uploaded image ids, mode `combined` and mode `cycle` each produce exactly
`L` generation items, mode `all` produces exactly `L * M` items, and
`M = 0` produces exactly `L` items carrying no reference-image fields. -/
theorem fanout_cardinality (cfg : Config) (promptsText : Str) (ids : List Str) :
    (ids ≠ [] → (cfg.refImageMode = .combined ∨ cfg.refImageMode = .cycle) →
      (buildItems cfg (linesOf promptsText) ids).length
        = (linesOf promptsText).length)
    ∧ (ids ≠ [] → cfg.refImageMode = .all →
      (buildItems cfg (linesOf promptsText) ids).length
        = (linesOf promptsText).length * ids.length)
    ∧ (buildItems cfg (linesOf promptsText) []).length
        = (linesOf promptsText).length
    ∧ ∀ it ∈ buildItems cfg (linesOf promptsText) [],
        it.init_image_id = none ∧ it.init_image_ids = none
          ∧ it.strength = none ∧ it.reference_mode = none := by
  refine ⟨?_, ?_, ?_, ?_⟩
  · intro hne hmode
    rcases hmode with h | h <;>
      simp [buildItems, hne, h, List.length_mapIdx]
  · intro hne h
    simp only [buildItems, if_neg hne, h, List.length_flatMap]
    rw [show (List.length ∘ fun p : Str =>
          List.map (fun imageId =>
            singleRefItem cfg (some imageId) (parsePromptLine cfg p)) ids)
        = fun _ : Str => ids.length from funext fun p => by simp]
    rw [List.map_const', List.sum_replicate, smul_eq_mul]
  · simp [buildItems]
  · intro it hmem
    have hb : buildItems cfg (linesOf promptsText) []
        = (linesOf promptsText).map
            (fun p => plainItem cfg (parsePromptLine cfg p)) := by
      simp [buildItems]
    rw [hb] at hmem
    obtain ⟨p, hp, rfl⟩ := List.mem_map.mp hmem
    exact ⟨rfl, rfl, rfl, rfl⟩

/-- Witness for C1 at concrete inputs. -/
theorem fanout_cardinality_witness :
    (buildItems { exampleConfig with refImageMode := .cycle }
        (linesOf "a\nb\nc".data) ["i1".data, "i2".data]).length = 3
    ∧ (buildItems { exampleConfig with refImageMode := .all }
        (linesOf "a\nb".data) ["i1".data, "i2".data, "i3".data]).length = 6
    ∧ (buildItems exampleConfig (linesOf "a\nb".data) []).length = 2 := by
  refine ⟨?_, ?_, ?_⟩
  · exact ((fanout_cardinality { exampleConfig with refImageMode := .cycle }
      "a\nb\nc".data ["i1".data, "i2".data]).1 (by simp) (Or.inr rfl)).trans
      (by decide)
  · exact ((fanout_cardinality { exampleConfig with refImageMode := .all }
      "a\nb".data ["i1".data, "i2".data, "i3".data]).2.1 (by simp) rfl).trans
      (by decide)
  · exact (fanout_cardinality exampleConfig "a\nb".data []).2.2.1.trans (by decide)

/-- C6: in `cycle` mode with a non-empty id list, the item built for
prompt line index `i` (0-based) carries exactly the single image id
`images[i mod M]`; and the sequential upload loop preserves the order of
the uploaded ids. -/
theorem cycle_determinism (cfg : Config) (lines ids : List Str) (i : Nat)
    (hmode : cfg.refImageMode = .cycle) (hids : ids ≠ [])
    (hi : i < lines.length) :
    (∃ it, (buildItems cfg lines ids)[i]? = some it
        ∧ it.init_image_id = ids[i % ids.length]?)
    ∧ ∀ (start : Nat) (ids0 : List Str),
        (uploadPhase start (ids0.map some)).2 = some ids0 := by
  constructor
  · have hbuild : buildItems cfg lines ids
        = lines.mapIdx (fun idx p =>
            singleRefItem cfg ids[idx % ids.length]? (parsePromptLine cfg p)) := by
      simp [buildItems, hids, hmode]
    rw [hbuild, List.getElem?_mapIdx, List.getElem?_eq_getElem hi]
    exact ⟨_, rfl, rfl⟩
  · intro start ids0
    induction ids0 generalizing start with
    | nil => rfl
    | cons x xs ih => simp [uploadPhase, ih (start + 1)]

/-- Witness for C6 at concrete inputs. -/
theorem cycle_determinism_witness :
    ((buildItems { exampleConfig with refImageMode := .cycle }
        ["a".data, "b".data, "c".data] ["i1".data, "i2".data])[2]?).map
        GenItem.init_image_id = some (some "i1".data)
    ∧ (uploadPhase 0 (["u1".data, "u2".data].map some)).2
        = some ["u1".data, "u2".data] := by
  have h := cycle_determinism { exampleConfig with refImageMode := .cycle }
    ["a".data, "b".data, "c".data] ["i1".data, "i2".data] 2 rfl (by simp)
    (by decide)
  constructor
  · obtain ⟨it, hget, hid⟩ := h.1
    rw [hget]
    simp only [Option.map_some']
    rw [hid]
    decide
  · exact h.2 0 ["u1".data, "u2".data]

/-- C7: every generation item that carries a reference image (modes
`combined`, `cycle` and `all`) transmits the strength field
`1 - initStrength` exactly. -/
theorem strength_inversion (cfg : Config) (lines ids : List Str) (it : GenItem)
    (hmem : it ∈ buildItems cfg lines ids)
    (href : it.init_image_id ≠ none ∨ it.init_image_ids ≠ none) :
    it.strength = some (1 - cfg.initStrength) := by
  by_cases hids : ids = []
  · subst hids
    have hb : buildItems cfg lines []
        = lines.map (fun p => plainItem cfg (parsePromptLine cfg p)) := by
      simp [buildItems]
    rw [hb] at hmem
    obtain ⟨p, hp, rfl⟩ := List.mem_map.mp hmem
    rcases href with h | h <;> exact absurd rfl h
  · cases hmode : cfg.refImageMode with
    | combined =>
      have hb : buildItems cfg lines ids
          = lines.map (fun p => combinedItem cfg ids (parsePromptLine cfg p)) := by
        simp [buildItems, hids, hmode]
      rw [hb] at hmem
      obtain ⟨p, hp, rfl⟩ := List.mem_map.mp hmem
      rfl
    | cycle =>
      have hb : buildItems cfg lines ids
          = lines.mapIdx (fun idx p =>
              singleRefItem cfg ids[idx % ids.length]?
                (parsePromptLine cfg p)) := by
        simp [buildItems, hids, hmode]
      rw [hb] at hmem
      rw [List.mem_iff_getElem?] at hmem
      obtain ⟨n, hn⟩ := hmem
      rw [List.getElem?_mapIdx] at hn
      cases hp : lines[n]? with
      | none => rw [hp] at hn; simp at hn
      | some p =>
        rw [hp] at hn
        simp only [Option.map_some', Option.some.injEq] at hn
        rw [← hn]
        rfl
    | all =>
      have hb : buildItems cfg lines ids
          = lines.flatMap (fun p =>
              ids.map (fun imageId =>
                singleRefItem cfg (some imageId) (parsePromptLine cfg p))) := by
        simp [buildItems, hids, hmode]
      rw [hb] at hmem
      obtain ⟨p, hp, hmem2⟩ := List.mem_flatMap.mp hmem
      obtain ⟨imageId, hid, rfl⟩ := List.mem_map.mp hmem2
      rfl

/-- Witness for C7 at a concrete input. -/
theorem strength_inversion_witness :
    (combinedItem exampleConfig ["i1".data]
        (parsePromptLine exampleConfig "a".data)).strength
      = some (1 - exampleConfig.initStrength) := by
  apply strength_inversion exampleConfig ["a".data] ["i1".data]
  · have hb : buildItems exampleConfig ["a".data] ["i1".data]
        = [combinedItem exampleConfig ["i1".data]
            (parsePromptLine exampleConfig "a".data)] := by
      simp [buildItems, exampleConfig]
    rw [hb]
    exact List.mem_singleton.mpr rfl
  · exact Or.inr (by simp [combinedItem, plainItem])

/-! ### Claims about the job poller and the submission flow -/

theorem effectTick_checkActive (s : PollerState) (e : Option Snapshot) :
    (effectTick s e).checkActive = s.checkActive := by
  cases e <;> by_cases h : s.effectActive <;> simp [effectTick, h]

theorem effectTick_effectActive (s : PollerState) (e : Option Snapshot) :
    (effectTick s e).effectActive = s.effectActive := by
  cases e <;> by_cases h : s.effectActive <;> simp [effectTick, h]

theorem effectTick_completeFired (s : PollerState) (e : Option Snapshot) :
    (effectTick s e).completeFired = s.completeFired := by
  cases e <;> by_cases h : s.effectActive <;> simp [effectTick, h]

theorem checkTick_effectActive (s : PollerState) (c : Option Snapshot) :
    (checkTick s c).effectActive = s.effectActive := by
  cases c with
  | none => by_cases h : s.checkActive <;> simp [checkTick, h]
  | some snap =>
    by_cases h : s.checkActive <;>
      by_cases hs : snap.completed + snap.failed = snap.total <;>
        simp [checkTick, h, hs]

theorem checkTick_inactive (s : PollerState) (c : Option Snapshot)
    (h : s.checkActive = false) : checkTick s c = s := by
  cases c <;> simp [checkTick, h]

theorem tick_effectActive (s : PollerState) (e c : Option Snapshot) :
    (tick s e c).effectActive = s.effectActive := by
  rw [tick, checkTick_effectActive, effectTick_effectActive]

theorem tick_checkActive_false (s : PollerState) (e c : Option Snapshot)
    (h : s.checkActive = false) : (tick s e c).checkActive = false := by
  rw [tick, checkTick_inactive _ _ (by rw [effectTick_checkActive]; exact h),
    effectTick_checkActive]
  exact h

theorem runPoll_checkActive_false (resps : List (Option Snapshot × Option Snapshot))
    (s : PollerState) (h : s.checkActive = false) :
    (runPoll s resps).checkActive = false := by
  induction resps generalizing s with
  | nil => exact h
  | cons r rest ih =>
    obtain ⟨e, c⟩ := r
    exact ih _ (tick_checkActive_false s e c h)

theorem runPoll_effectActive (resps : List (Option Snapshot × Option Snapshot))
    (s : PollerState) : (runPoll s resps).effectActive = s.effectActive := by
  induction resps generalizing s with
  | nil => rfl
  | cons r rest ih =>
    obtain ⟨e, c⟩ := r
    rw [runPoll, ih, tick_effectActive]

theorem runPoll_completeFired_of_inactive
    (resps : List (Option Snapshot × Option Snapshot)) (s : PollerState)
    (h : s.checkActive = false) :
    (runPoll s resps).completeFired = s.completeFired := by
  induction resps generalizing s with
  | nil => rfl
  | cons r rest ih =>
    obtain ⟨e, c⟩ := r
    rw [runPoll, ih _ (tick_checkActive_false s e c h), tick,
      checkTick_inactive _ _ (by rw [effectTick_checkActive]; exact h),
      effectTick_completeFired]

theorem effectTick_none (s : PollerState) : effectTick s none = s := by
  by_cases h : s.effectActive <;> simp [effectTick, h]

theorem checkTick_none_jobStatus (s : PollerState) :
    (checkTick s none).jobStatus = s.jobStatus := by
  by_cases h : s.checkActive <;> simp [checkTick, h]

/-- C2 counterexample: on the tick where a settled snapshot
(`completed + failed = total`) is observed, the `checkCompletion` interval
stops and the notification fires, but the component-level `useEffect`
interval remains active and still issues a status query on the next tick
(`queriesIssued ≠ 0`), refuting "polling stops (no further status queries
are issued by any active interval)" as stated. -/
theorem job_poller_settlement_counterexample :
    ((⟨1, 1, 0, 0, []⟩ : Snapshot).completed + (⟨1, 1, 0, 0, []⟩ : Snapshot).failed
        = (⟨1, 1, 0, 0, []⟩ : Snapshot).total)
    ∧ (tick initialPollerState (some ⟨1, 1, 0, 0, []⟩)
        (some ⟨1, 1, 0, 0, []⟩)).completeFired = true
    ∧ (tick initialPollerState (some ⟨1, 1, 0, 0, []⟩)
        (some ⟨1, 1, 0, 0, []⟩)).checkActive = false
    ∧ queriesIssued (tick initialPollerState (some ⟨1, 1, 0, 0, []⟩)
        (some ⟨1, 1, 0, 0, []⟩)) ≠ 0 := by
  decide

/-- C2 (amended): when the `checkCompletion` interval observes a snapshot
with `completed + failed = total`, it clears itself (and stays cleared for
the rest of the run) and the on-completion notification fires on that
transition; the component-level `useEffect` interval is unaffected and
keeps its active state for the rest of the run (until unmount or a
`batchId` change tears it down). -/
theorem job_poller_settlement_amended (s : PollerState) (eff : Option Snapshot) (snap : Snapshot)
    (hact : s.checkActive = true)
    (hset : snap.completed + snap.failed = snap.total) :
    (tick s eff (some snap)).checkActive = false
    ∧ (tick s eff (some snap)).completeFired = true
    ∧ (tick s eff (some snap)).effectActive = s.effectActive
    ∧ (∀ resps, (runPoll (tick s eff (some snap)) resps).checkActive = false)
    ∧ (∀ resps, (runPoll (tick s eff (some snap)) resps).effectActive
        = s.effectActive) := by
  have hca : (effectTick s eff).checkActive = true := by
    rw [effectTick_checkActive]; exact hact
  have htick : tick s eff (some snap)
      = { effectTick s eff with
          jobStatus := some snap
          checkActive := false
          completeFired := true } := by
    simp [tick, checkTick, hca, hset]
  refine ⟨by rw [htick], by rw [htick], ?_, ?_, ?_⟩
  · rw [tick_effectActive]
  · intro resps
    exact runPoll_checkActive_false resps _ (by rw [htick])
  · intro resps
    rw [runPoll_effectActive, tick_effectActive]

/-- Witness for the amended C2 at concrete inputs. -/
theorem job_poller_settlement_amended_witness :
    (tick initialPollerState none (some ⟨2, 1, 1, 0, []⟩)).checkActive = false
    ∧ (tick initialPollerState none (some ⟨2, 1, 1, 0, []⟩)).completeFired = true
    ∧ (runPoll (tick initialPollerState none (some ⟨2, 1, 1, 0, []⟩))
        [(none, none), (some ⟨2, 2, 0, 0, []⟩, none)]).checkActive = false := by
  have h := job_poller_settlement_amended initialPollerState none ⟨2, 1, 1, 0, []⟩ rfl (by decide)
  exact ⟨h.1, h.2.1, h.2.2.2.1 [(none, none), (some ⟨2, 2, 0, 0, []⟩, none)]⟩

/-- C5 counterexample: after a tick on which both status queries fail,
a further query is still issued (the `useEffect` interval stays active),
and a later successful response changes the stored snapshot, refuting
"no further status queries are issued after the first failed one, and the
last observed aggregate snapshot is left unchanged" as stated. -/
theorem polling_failfast_counterexample :
    queriesIssued (tick initialPollerState none none) ≠ 0
    ∧ (tick (tick initialPollerState none none)
        (some ⟨3, 1, 0, 2, []⟩) none).jobStatus = some ⟨3, 1, 0, 2, []⟩
    ∧ (tick initialPollerState none none).jobStatus = none := by
  decide

/-- C5 (amended): when the `checkCompletion` interval's status query
fails, that interval stops permanently without retry and the notification
never fires for the rest of the run; a tick whose queries all fail leaves
the snapshot unchanged; but the component-level `useEffect` interval
survives its own query failures (it only logs) and keeps polling. -/
theorem polling_failfast_amended (s : PollerState) (eff : Option Snapshot)
    (hact : s.checkActive = true) :
    (tick s eff none).checkActive = false
    ∧ (tick s eff none).completeFired = s.completeFired
    ∧ (∀ resps, (runPoll (tick s eff none) resps).checkActive = false)
    ∧ (∀ resps, (runPoll (tick s eff none) resps).completeFired
        = s.completeFired)
    ∧ (tick s none none).jobStatus = s.jobStatus
    ∧ (tick s none none).effectActive = s.effectActive := by
  have hca : (effectTick s eff).checkActive = true := by
    rw [effectTick_checkActive]; exact hact
  have htick : tick s eff none
      = { (effectTick s eff) with checkActive := false } := by
    simp [tick, checkTick, hca]
  have hcf : (tick s eff none).completeFired = s.completeFired := by
    rw [htick]
    show (effectTick s eff).completeFired = s.completeFired
    exact effectTick_completeFired s eff
  refine ⟨by rw [htick], hcf, ?_, ?_, ?_, ?_⟩
  · intro resps
    exact runPoll_checkActive_false resps _ (by rw [htick])
  · intro resps
    rw [runPoll_completeFired_of_inactive _ _ (by rw [htick]), hcf]
  · rw [tick, effectTick_none, checkTick_none_jobStatus]
  · rw [tick_effectActive]

/-- Witness for the amended C5 at concrete inputs. -/
theorem polling_failfast_amended_witness :
    (tick initialPollerState none none).checkActive = false
    ∧ (tick initialPollerState none none).completeFired = false
    ∧ (runPoll (tick initialPollerState none none)
        [(some ⟨3, 1, 0, 2, []⟩, none)]).completeFired = false
    ∧ (tick initialPollerState none none).jobStatus = none := by
  have h := polling_failfast_amended initialPollerState none rfl
  exact ⟨h.1, h.2.1, h.2.2.2.1 [(some ⟨3, 1, 0, 2, []⟩, none)], h.2.2.2.2.1⟩

theorem uploadPhase_events (us : List (Option Str)) (i : Nat) :
    ∀ e ∈ (uploadPhase i us).1, ∃ k, e = SubmitEvent.uploadCall k := by
  induction us generalizing i with
  | nil => intro e he; exact absurd he (by simp [uploadPhase])
  | cons o rest ih =>
    cases o with
    | some id =>
      intro e he
      simp only [uploadPhase, List.mem_cons] at he
      rcases he with rfl | he
      · exact ⟨i, rfl⟩
      · exact ih (i + 1) e he
    | none =>
      intro e he
      simp only [uploadPhase, List.mem_singleton] at he
      exact ⟨i, he⟩

/-- C3 counterexample: with one reference image attached and an empty
bulk text (zero prompt lines after filtering), `handleSubmit` issues the
upload network call before the zero-prompt rejection, refuting "the
submission is rejected before any network call is made (including
reference-image uploads)" as stated. -/
theorem input_error_precondition_counterexample :
    linesOf [] = []
    ∧ handleSubmitTrace exampleConfig [] [some "i1".data] none
        = [SubmitEvent.uploadCall 0, SubmitEvent.alertNoPrompts] := by
  constructor
  · decide
  · decide

/-- C3 (amended): with zero non-empty prompt lines the submission is
rejected with a synchronous alert and no batch-create call and no polling
ever happen, but the rejection comes only after all reference-image
uploads have been attempted; when no reference images are attached the
rejection happens before any network call. -/
theorem input_error_precondition_amended (cfg : Config) (promptsText : Str)
    (uploads : List (Option Str)) (batchResp : Option Str)
    (hempty : linesOf promptsText = []) :
    (∀ ids, (uploadPhase 0 uploads).2 = some ids →
      handleSubmitTrace cfg promptsText uploads batchResp
        = (uploadPhase 0 uploads).1 ++ [SubmitEvent.alertNoPrompts])
    ∧ (∀ e ∈ handleSubmitTrace cfg promptsText uploads batchResp,
        (∀ its, e ≠ SubmitEvent.batchCall its)
        ∧ (∀ b, e ≠ SubmitEvent.pollingStarted b))
    ∧ (uploads = [] →
      handleSubmitTrace cfg promptsText uploads batchResp
        = [SubmitEvent.alertNoPrompts]) := by
  cases hup : (uploadPhase 0 uploads).2 with
  | none =>
    have htr : handleSubmitTrace cfg promptsText uploads batchResp
        = (uploadPhase 0 uploads).1 ++ [SubmitEvent.alertFailed] := by
      simp [handleSubmitTrace, hup]
    refine ⟨?_, ?_, ?_⟩
    · intro ids hids
      exact absurd hids (by simp)
    · intro e he
      rw [htr] at he
      rcases List.mem_append.mp he with h | h
      · obtain ⟨k, rfl⟩ := uploadPhase_events uploads 0 e h
        exact ⟨fun its => by simp, fun b => by simp⟩
      · have he2 : e = SubmitEvent.alertFailed := by simpa using h
        subst he2
        exact ⟨fun its => by simp, fun b => by simp⟩
    · intro h0
      subst h0
      simp [uploadPhase] at hup
  | some ids0 =>
    have htr : handleSubmitTrace cfg promptsText uploads batchResp
        = (uploadPhase 0 uploads).1 ++ [SubmitEvent.alertNoPrompts] := by
      simp [handleSubmitTrace, hup, hempty]
    refine ⟨fun _ _ => htr, ?_, ?_⟩
    · intro e he
      rw [htr] at he
      rcases List.mem_append.mp he with h | h
      · obtain ⟨k, rfl⟩ := uploadPhase_events uploads 0 e h
        exact ⟨fun its => by simp, fun b => by simp⟩
      · have he2 : e = SubmitEvent.alertNoPrompts := by simpa using h
        subst he2
        exact ⟨fun its => by simp, fun b => by simp⟩
    · intro h0
      subst h0
      rw [htr]
      simp [uploadPhase]

/-- Witness for the amended C3 at concrete inputs. -/
theorem input_error_precondition_amended_witness :
    handleSubmitTrace exampleConfig [] [some "i1".data, some "i2".data] none
        = [SubmitEvent.uploadCall 0, SubmitEvent.uploadCall 1,
           SubmitEvent.alertNoPrompts]
    ∧ handleSubmitTrace exampleConfig [] [] none
        = [SubmitEvent.alertNoPrompts] := by
  constructor
  · exact ((input_error_precondition_amended exampleConfig [] [some "i1".data, some "i2".data] none
      (by decide)).1 ["i1".data, "i2".data] (by decide)).trans (by decide)
  · exact (input_error_precondition_amended exampleConfig [] [] none (by decide)).2.2 rfl

/-! ### Claims about trigger-word and variant injection -/

theorem variant_find_unique :
    ∀ v ∈ IMPORTANT_VARIANTS,
      IMPORTANT_VARIANTS.find? (fun u => u.value = v.value) = some v := by
  decide

/-- C9 counterexample: with trigger word `"T"` and Element id `"5"`, the
prompt built for base `"a"` is `"T, a "` (a trailing space is appended),
not the claimed pure prepend `"T, " ++ "a"`; and with the important
variant `raising_a_cube` selected the appended text is
`", Raising a cube imp = raising_a_cube "` (spaces around `=` and a
trailing space), not the claimed `", Raising a cube imp=raising_a_cube"`. -/
theorem trigger_variant_injection_counterexample :
    (parsePromptLine
        { exampleConfig with loraId := "5".data, triggerWord := "T".data }
        "a".data).prompt = "T, a ".data
    ∧ "T, a ".data ≠ "T, ".data ++ "a".data
    ∧ (parsePromptLine
        { exampleConfig with impVariant := "raising_a_cube".data }
        "a".data).prompt = "a, Raising a cube imp = raising_a_cube ".data
    ∧ "a, Raising a cube imp = raising_a_cube ".data
        ≠ "a".data ++ ", Raising a cube imp=raising_a_cube".data := by
  refine ⟨by decide, by decide, by decide, by decide⟩

/-- C9 (amended): if a trigger word is configured (non-blank) and an
Element id is set (non-blank), the prompt is
`trigger.trim ++ ", " ++ base ++ " "`; if an important variant is
selected, `", " ++ label ++ " imp = " ++ slug ++ " "` is appended; with
neither configured the prompt equals the base prompt unchanged. -/
theorem trigger_variant_injection_amended (cfg : Config) (line : Str) :
    ((jsTrim cfg.loraId ≠ [] ∧ jsTrim cfg.triggerWord ≠ []) →
      (∀ v ∈ IMPORTANT_VARIANTS, v.value ≠ cfg.impVariant) →
      (parsePromptLine cfg line).prompt
        = jsTrim cfg.triggerWord ++ ", ".data
            ++ (baseAndNeg cfg.negativePrompt (remainingOf line)).1 ++ " ".data)
    ∧ (∀ v ∈ IMPORTANT_VARIANTS, cfg.impVariant = v.value →
        (jsTrim cfg.loraId = [] ∨ jsTrim cfg.triggerWord = []) →
        (parsePromptLine cfg line).prompt
          = (baseAndNeg cfg.negativePrompt (remainingOf line)).1 ++ ", ".data
              ++ v.label ++ " imp = ".data ++ v.value ++ " ".data)
    ∧ (∀ v ∈ IMPORTANT_VARIANTS, cfg.impVariant = v.value →
        (jsTrim cfg.loraId ≠ [] ∧ jsTrim cfg.triggerWord ≠ []) →
        (parsePromptLine cfg line).prompt
          = (jsTrim cfg.triggerWord ++ ", ".data
              ++ (baseAndNeg cfg.negativePrompt (remainingOf line)).1 ++ " ".data)
              ++ ", ".data ++ v.label ++ " imp = ".data ++ v.value ++ " ".data)
    ∧ ((jsTrim cfg.loraId = [] ∨ jsTrim cfg.triggerWord = []) →
        (∀ v ∈ IMPORTANT_VARIANTS, v.value ≠ cfg.impVariant) →
        (parsePromptLine cfg line).prompt
          = (baseAndNeg cfg.negativePrompt (remainingOf line)).1) := by
  have hoff : ∀ h : jsTrim cfg.loraId = [] ∨ jsTrim cfg.triggerWord = [],
      ¬ (jsTrim cfg.loraId ≠ [] ∧ jsTrim cfg.triggerWord ≠ []) := by
    rintro (h | h) hc
    · exact hc.1 h
    · exact hc.2 h
  have hnone : ∀ _ : (∀ v ∈ IMPORTANT_VARIANTS, v.value ≠ cfg.impVariant),
      IMPORTANT_VARIANTS.find? (fun u => u.value = cfg.impVariant) = none := by
    intro hno
    exact List.find?_eq_none.mpr (fun v hv => by simpa using hno v hv)
  refine ⟨?_, ?_, ?_, ?_⟩
  · intro htrig hno
    rw [parsePromptLine_prompt]
    simp only [injectTriggerVariant, hnone hno, if_pos htrig]
  · intro v hv himp htriq
    rw [parsePromptLine_prompt]
    simp only [injectTriggerVariant, himp, variant_find_unique v hv,
      if_neg (hoff htriq)]
  · intro v hv himp htrig
    rw [parsePromptLine_prompt]
    simp only [injectTriggerVariant, himp, variant_find_unique v hv,
      if_pos htrig]
  · intro htriq hno
    rw [parsePromptLine_prompt]
    simp only [injectTriggerVariant, hnone hno, if_neg (hoff htriq)]

/-- Witness for the amended C9 at concrete inputs. -/
theorem trigger_variant_injection_amended_witness :
    (parsePromptLine
        { exampleConfig with loraId := "5".data, triggerWord := "T".data }
        "a".data).prompt = "T, a ".data
    ∧ (parsePromptLine exampleConfig "a".data).prompt = "a".data := by
  constructor
  · exact ((trigger_variant_injection_amended
      { exampleConfig with loraId := "5".data, triggerWord := "T".data }
      "a".data).1 ⟨by decide, by decide⟩ (by decide)).trans (by decide)
  · exact ((trigger_variant_injection_amended exampleConfig "a".data).2.2.2 (Or.inl (by decide))
      (by decide)).trans (by decide)

end Leo
